import Mathlib

/-!
Verification of the OrcaMath step-validation / progress-synchronization flow.

This file gives a shallow embedding, in Lean, of the core logic of the
OrcaMath mobile learning application: the heuristic step checker
(`src/checker.ts`, heuristic variant), the remote-judge validation client
(`src/llmValidator.ts`), the handwriting-recognition client
(`src/mathpix.ts`), the problems loader (`src/problemsLoader.ts`), and the
session/progress state transitions of `src/screens/ProblemSolveScreen.tsx`
(`solved`, `commitTyped`, `commitInk`, `undo`, `loadOrCreateAttempt`,
`markAsSolved`).

Network calls are modelled by an explicit `NetResult` oracle describing how
the single `fetch` of each client behaves (rejection, non-success HTTP status,
invalid JSON body, or a parsed success value); database tables are modelled as
in-memory lists of rows, with the supabase queries translated to `List.find?`
with the recency ordering of the queried table reflected by list order.
JavaScript strings are modelled as `String` / `List Char`, and the handful of
hard-coded regular expressions of the heuristic checker are translated to
executable matchers over `List Char` (the `\s*` pieces are compiled as greedy
whitespace skips, which is equivalent here because every `\s*` in those
patterns is followed by a non-whitespace token).
-/

/-! ## Data model (`src/types.ts`) -/

/-- `StepOutcome` from `src/types.ts`:
`"pending" | "correct" | "incorrect" | "neutral"`. -/
inductive StepOutcome where
  | pending
  | correct
  | incorrect
  | neutral
deriving Repr, DecidableEq

/-- `Step` from `src/types.ts`. -/
structure Step where
  id : String
  text : String
  outcome : StepOutcome
  feedback : Option String := none
  imageBase64 : Option String := none
deriving Repr, DecidableEq

/-- `Problem` from `src/types.ts` (the `id : string | number` union is
modelled as `String`; the optional metadata irrelevant to the checkers is
dropped, `skill_tags` kept as a plain list). -/
structure Problem where
  id : String
  question : String
  canonicalAnswer : String
  skill_tags : List String := []
deriving Repr, DecidableEq

/-- `ProblemData` from `src/problemsLoader.ts`. -/
structure ProblemData where
  id : Nat
  question : String
  answer : String
  skill_tags : List String
deriving Repr, DecidableEq

/-- Result record of the heuristic checker:
`{ outcome: Step["outcome"]; feedback?: string }`. -/
structure CheckResult where
  outcome : StepOutcome
  feedback : Option String := none
deriving Repr, DecidableEq

/-! ## String helpers (JavaScript string primitives over `List Char`) -/

/-- JavaScript `\s` whitespace class, restricted to the ASCII whitespace
that can occur in this app's inputs. -/
def isWS (c : Char) : Bool :=
  c == ' ' || c == '\t' || c == '\n' || c == '\r'

/-- JavaScript `\w` word-character class `[A-Za-z0-9_]`. -/
def isWordChar (c : Char) : Bool :=
  c.isAlpha || c.isDigit || c == '_'

/-- `replace(/\s+/g, " ")`: collapse each whitespace run to one space.
The boolean argument records whether the previous character was whitespace. -/
def collapseWSAux : Bool → List Char → List Char
  | _, [] => []
  | prevWS, c :: rest =>
    if isWS c then
      if prevWS then collapseWSAux true rest
      else ' ' :: collapseWSAux true rest
    else c :: collapseWSAux false rest

/-- JavaScript `String.prototype.trim` over char lists. -/
def trimChars (l : List Char) : List Char :=
  ((l.dropWhile isWS).reverse.dropWhile isWS).reverse

/-- `normalize` from `src/checker.ts`:
`(s) => s.replace(/\s+/g, " ").trim()`, over char lists. -/
def normalizeChars (l : List Char) : List Char :=
  trimChars (collapseWSAux false l)

/-- JavaScript `toLowerCase` (ASCII) over char lists. -/
def lowerChars (l : List Char) : List Char :=
  l.map Char.toLower

/-- JavaScript `String.prototype.trim` on `String`. -/
def jsTrim (s : String) : String :=
  String.mk (trimChars s.toList)

/-- Match a literal character sequence at the head of the input, returning
the rest of the input on success. -/
def litChars : List Char → List Char → Option (List Char)
  | [], l => some l
  | _ :: _, [] => none
  | p :: ps, c :: cs => if c == p then litChars ps cs else none

/-- Greedy `\s*`. -/
def skipWS : List Char → List Char :=
  List.dropWhile isWS

/-- A `\b` word boundary immediately before a word character: the previous
character (if any) must not be a word character. -/
def prevNonWord : Option Char → Bool
  | none => true
  | some c => !isWordChar c

/-- A `\b` word boundary (or `$`) immediately after a word character: the
next character (if any) must not be a word character. -/
def headNonWord : List Char → Bool
  | [] => true
  | c :: _ => !isWordChar c

/-- `isPrefixChars sub l` holds when `sub` is a prefix of `l`. -/
def isPrefixChars : List Char → List Char → Bool
  | [], _ => true
  | _ :: _, [] => false
  | p :: ps, c :: cs => p == c && isPrefixChars ps cs

/-- JavaScript `String.prototype.includes` over char lists: `sub` occurs as
a contiguous substring of the input. -/
def hasSubstring (sub : List Char) : List Char → Bool
  | [] => isPrefixChars sub []
  | c :: rest => isPrefixChars sub (c :: rest) || hasSubstring sub rest

/-- `RegExp.prototype.test`: try the position matcher `m` at every position
of the input, tracking the character preceding each position for `\b`. -/
def testFrom (m : Option Char → List Char → Bool) : Option Char → List Char → Bool
  | prev, [] => m prev []
  | prev, c :: rest => m prev (c :: rest) || testFrom m (some c) rest

/-- `RegExp.prototype.test` starting at the beginning of the string. -/
def testPat (m : Option Char → List Char → Bool) (l : List Char) : Bool :=
  testFrom m none l

/-! ## Heuristic checker (`src/checker.ts`, heuristic variant)

Hard-coded to the demonstration problem
"A number divided by 10 is 6. Yoongi got the result by subtracting 15 from a
certain number. What is the result he got?" with canonical thinking
`x/10 = 6 → x = 60 → 60 - 15 = 45`. -/

namespace Checker

/-- Position matcher for `/\bx\s*=\s*60\b/` (`eq60`). -/
def matchEq60At (prev : Option Char) (l : List Char) : Bool :=
  prevNonWord prev &&
    ((do
      let r1 ← litChars "x".toList l
      let r2 ← litChars "=".toList (skipWS r1)
      let r3 ← litChars "60".toList (skipWS r2)
      pure (headNonWord r3) : Option Bool).getD false)

/-- Position matcher for the first alternative of `divEq`,
`/\bx\s*\/?\s*10\s*=\s*6\b/`. -/
def matchDivEqSlashAt (prev : Option Char) (l : List Char) : Bool :=
  prevNonWord prev &&
    ((do
      let r1 ← litChars "x".toList l
      let r2 := skipWS r1
      let r3 := (litChars "/".toList r2).getD r2
      let r4 ← litChars "10".toList (skipWS r3)
      let r5 ← litChars "=".toList (skipWS r4)
      let r6 ← litChars "6".toList (skipWS r5)
      pure (headNonWord r6) : Option Bool).getD false)

/-- Position matcher for the second alternative of `divEq`,
`/\bx\s*divided by\s*10\s*is\s*6\b/`. -/
def matchDivEqWordsAt (prev : Option Char) (l : List Char) : Bool :=
  prevNonWord prev &&
    ((do
      let r1 ← litChars "x".toList l
      let r2 ← litChars "divided by".toList (skipWS r1)
      let r3 ← litChars "10".toList (skipWS r2)
      let r4 ← litChars "is".toList (skipWS r3)
      let r5 ← litChars "6".toList (skipWS r4)
      pure (headNonWord r5) : Option Bool).getD false)

/-- Position matcher for `/(^|\b)(45)(\b|$)/` (`final45`). Since `4` and `5`
are word characters, `(^|\b)` is exactly `prevNonWord` and `(\b|$)` is
exactly `headNonWord`. -/
def matchFinal45At (prev : Option Char) (l : List Char) : Bool :=
  prevNonWord prev &&
    ((do
      let r ← litChars "45".toList l
      pure (headNonWord r) : Option Bool).getD false)

/-- Position matcher for the first alternative of `compute`,
`/60\s*-\s*15\s*=\s*45/`. -/
def matchComputeAt (_prev : Option Char) (l : List Char) : Bool :=
  (do
    let r1 ← litChars "60".toList l
    let r2 ← litChars "-".toList (skipWS r1)
    let r3 ← litChars "15".toList (skipWS r2)
    let r4 ← litChars "=".toList (skipWS r3)
    litChars "45".toList (skipWS r4)).isSome

/-- Position matcher for the second alternative of `compute`,
`/result\s*=\s*45/`. -/
def matchResultAt (_prev : Option Char) (l : List Char) : Bool :=
  (do
    let r1 ← litChars "result".toList l
    let r2 ← litChars "=".toList (skipWS r1)
    litChars "45".toList (skipWS r2)).isSome

/-- Position matcher for `wrongCompute`, `/60\s*-\s*15\s*=\s*(?!45)\d+/`:
after `=` and optional whitespace, the rest must not start with `45` but
must start with a digit. -/
def matchWrongComputeAt (_prev : Option Char) (l : List Char) : Bool :=
  ((do
    let r1 ← litChars "60".toList l
    let r2 ← litChars "-".toList (skipWS r1)
    let r3 ← litChars "15".toList (skipWS r2)
    let r4 ← litChars "=".toList (skipWS r3)
    let r5 := skipWS r4
    pure (!(litChars "45".toList r5).isSome &&
      (match r5 with
       | c :: _ => c.isDigit
       | [] => false)) : Option Bool).getD false)

/-- `checkNewLine` from `src/checker.ts` (heuristic variant): classify one
line against the hard-coded patterns, checking `wrongCompute`, then `divEq`,
then `eq60`, then `compute`/`final45`, defaulting to `"neutral"`. The
`problem` and `prior` arguments are accepted but never used, exactly as in
the source. -/
def checkNewLine (problem : Problem) (prior : List Step) (newLine : String) :
    CheckResult :=
  let t := lowerChars (normalizeChars newLine.toList)
  if testPat matchWrongComputeAt t then
    { outcome := .incorrect,
      feedback := some "Check the subtraction: 60 − 15 should be 45." }
  else if testPat matchDivEqSlashAt t || testPat matchDivEqWordsAt t then
    { outcome := .correct,
      feedback := some "Good start: you defined the equation x/10 = 6." }
  else if testPat matchEq60At t then
    { outcome := .correct,
      feedback := some "Nice—solved for x correctly (x = 60)." }
  else if testPat matchComputeAt t || testPat matchResultAt t ||
      testPat matchFinal45At t then
    { outcome := .correct,
      feedback := some "That’s the result Yoongi got: 45." }
  else
    { outcome := .neutral,
      feedback := some "Try writing either x/10 = 6, then x = 60, then 60 − 15 = 45." }

/-- `isSolved` from `src/checker.ts` (heuristic variant): some step's
normalized text matches `/(60\s*-\s*15\s*=\s*45)|(^|\b)(45)(\b|$)/`.
Note the source applies `normalize` but not `toLowerCase` here. -/
def isSolved (steps : List Step) (problem : Problem) : Bool :=
  steps.any fun s =>
    let t := normalizeChars s.text.toList
    testPat matchComputeAt t || testPat matchFinal45At t

/-- `finalCheck` from `src/checker.ts` (heuristic variant). -/
def finalCheck (problem : Problem) (steps : List Step) : Bool × String :=
  let ok := isSolved steps problem
  if ok then (true, "✅ Correct. Final result: 45.")
  else (false, "Not quite yet. Aim to compute 60 − 15 and state the result.")

end Checker

/-! ## Network oracle

Each client performs a single `fetch` inside a `try` block. `NetResult`
describes how that fetch behaves for the call under consideration:
the promise rejects (`netError`), the response has a non-success status
(`httpError`, carrying the status and the error body text), the body is not
valid JSON (`badJson`), or it parses to a value (`success`). -/

inductive NetResult (α : Type) where
  | netError
  | httpError (status : Nat) (body : String)
  | badJson
  | success (value : α)
deriving Repr, DecidableEq

/-- The fetch did not produce a parsed success value. -/
def NetResult.isFailure {α : Type} : NetResult α → Bool
  | .success _ => false
  | _ => true

/-! ## Remote-judge validation client (`src/llmValidator.ts`) -/

/-- `ValidationResponse` from `src/llmValidator.ts`. The source type is the
union `"correct" | "incorrect" | "neutral"`; it is modelled inside the wider
`StepOutcome`. -/
structure ValidationResponse where
  outcome : StepOutcome
  feedback : String
deriving Repr, DecidableEq

/-- `FinalCheckResponse` from `src/llmValidator.ts`. -/
structure FinalCheckResponse where
  isSolved : Bool
  feedback : String
deriving Repr, DecidableEq

/-- The `try` block of `validateStep`: fetch, throw on `!response.ok`
(with message built from the status), parse JSON (throwing on a bad body),
and return the parsed response. -/
def validateStepTryBody (net : NetResult ValidationResponse) :
    Except String ValidationResponse :=
  match net with
  | .netError => .error "TypeError: Failed to fetch"
  | .httpError status _ => .error ("Validation failed: " ++ toString status)
  | .badJson => .error "SyntaxError: unexpected token in JSON"
  | .success r => .ok r

/-- `validateStep` from `src/llmValidator.ts`: any exception of the `try`
body is caught and replaced by the fixed neutral fallback, so the function
is total (no exception reaches the caller). The `problem`, `priorSteps` and
`currentStep` arguments only shape the request payload and do not affect
the result. -/
def validateStep (net : NetResult ValidationResponse) (problem : Problem)
    (priorSteps : List Step) (currentStep : String) : ValidationResponse :=
  match validateStepTryBody net with
  | .ok r => r
  | .error _ =>
    { outcome := .neutral,
      feedback := "Unable to validate step (API unavailable). Continue working." }

/-- The `try` block of `checkIfSolved`: same shape as `validateStepTryBody`
but against the `{llm_url}/final` endpoint. -/
def checkIfSolvedTryBody (net : NetResult FinalCheckResponse) :
    Except String FinalCheckResponse :=
  match net with
  | .netError => .error "TypeError: Failed to fetch"
  | .httpError status _ => .error ("Final check failed: " ++ toString status)
  | .badJson => .error "SyntaxError: unexpected token in JSON"
  | .success r => .ok r

/-- `checkIfSolved` from `src/llmValidator.ts`: on success the parsed
response is returned verbatim; on any exception the fallback checks whether
the lowercased canonical answer occurs as a substring of the lowercased
text of SOME single step
(`steps.some(s => s.text.toLowerCase().includes(problem.canonicalAnswer.toLowerCase()))`). -/
def checkIfSolved (net : NetResult FinalCheckResponse) (problem : Problem)
    (steps : List Step) : FinalCheckResponse :=
  match checkIfSolvedTryBody net with
  | .ok r => r
  | .error _ =>
    let hasAnswer := steps.any fun s =>
      hasSubstring (lowerChars problem.canonicalAnswer.toList)
        (lowerChars s.text.toList)
    { isSolved := hasAnswer,
      feedback :=
        if hasAnswer then "Solution appears correct (fallback check)."
        else "Solution incomplete or incorrect (fallback check)." }

/-- The containment check exactly as the claim words it: the problem's
canonical answer occurs as a substring of the CONCATENATED step text.
Stated from the claim, for comparison with what `checkIfSolved` computes. -/
def concatContainmentCheck (problem : Problem) (steps : List Step) : Bool :=
  hasSubstring problem.canonicalAnswer.toList
    ((steps.map (fun s => s.text)).foldl (fun a b => a ++ b) "").toList

/-! ## Recognition client (`src/mathpix.ts`) -/

/-- The JSON body returned by the recognition proxy; `data.text` may be
absent, which `data.text || ''` turns into the empty string. -/
structure RecognitionData where
  text : Option String
deriving Repr, DecidableEq

/-- One `fetch` issued by a client: the URL hit and the base64 image sent
in the request body. -/
structure FetchCall where
  url : String
  imageBase64 : String
deriving Repr, DecidableEq

/-- `recognizeHandwriting` from `src/mathpix.ts`. The first component is
the trace of fetches issued (always exactly one, against the configured
proxy URL). There is no `try`/`catch` here: a rejected fetch, a non-success
status, or an unparseable body all propagate as an exception (`Except.error`);
on success the recognized text is `(data.text || '').trim()`. -/
def recognizeHandwriting (proxy : String) (net : NetResult RecognitionData)
    (pngBase64 : String) : List FetchCall × Except String String :=
  ([{ url := proxy, imageBase64 := pngBase64 }],
    match net with
    | .netError => .error "TypeError: Failed to fetch"
    | .httpError status body =>
      .error ("recognition failed: " ++ toString status ++ " " ++ body)
    | .badJson => .error "SyntaxError: unexpected token in JSON"
    | .success data => .ok (jsTrim (data.text.getD "")))

/-! ## Problems loader (`src/problemsLoader.ts`) -/

/-- `filterProblemsByTags` from `src/problemsLoader.ts`: with no selected
tags return the input unchanged, otherwise keep the problems whose
`skill_tags` include every selected tag. -/
def filterProblemsByTags (problems : List ProblemData)
    (selectedTags : List String) : List ProblemData :=
  if selectedTags.isEmpty then problems
  else problems.filter fun problem =>
    selectedTags.all fun tag => problem.skill_tags.contains tag

/-- `paginateProblems` from `src/problemsLoader.ts`. -/
def paginateProblems (problems : List ProblemData) (page pageSize : Nat) :
    List ProblemData :=
  (problems.drop (page * pageSize)).take pageSize

/-! ## Session controller (`src/screens/ProblemSolveScreen.tsx`) -/

/-- The screen's `solved` memo:
`steps.some(s => s.outcome === "correct") && steps[steps.length - 1]?.outcome === "correct"`
(the optional-chained index is `getLast?`; on the empty list the comparison
with `undefined` is `false`). -/
def solved (steps : List Step) : Bool :=
  (steps.any fun s => decide (s.outcome = StepOutcome.correct)) &&
    decide (steps.getLast?.map Step.outcome = some StepOutcome.correct)

/-- The simpler predicate of the refinement claim, stated from its words:
the step list is non-empty and its last step's outcome is `"correct"`. -/
def solvedSimple (steps : List Step) : Bool :=
  !steps.isEmpty &&
    decide (steps.getLast?.map Step.outcome = some StepOutcome.correct)

/-- `commitTyped`: trim the draft, bail out if it is empty, validate the
line (the awaited checker is passed in as `check`), and append the new step
built from the validator's result. The server-side activity logging is
outside this local step-list transition. -/
def commitTyped (check : List Step → String → CheckResult)
    (steps : List Step) (typedDraft : String) (newId : String) : List Step :=
  let text := jsTrim typedDraft
  if text = "" then steps
  else
    let res := check steps text
    steps ++ [{ id := newId, text := text, outcome := res.outcome,
                feedback := res.feedback, imageBase64 := none }]

/-- `commitInk`: bail out if there is no (or an empty, hence falsy)
recognized text, validate it, and append the new step carrying the snapshot
image. -/
def commitInk (check : List Step → String → CheckResult)
    (steps : List Step) (recognizedText : Option String)
    (recognizedImage : Option String) (newId : String) : List Step :=
  match recognizedText with
  | none => steps
  | some text =>
    if text = "" then steps
    else
      let res := check steps text
      steps ++ [{ id := newId, text := text, outcome := res.outcome,
                  feedback := res.feedback, imageBase64 := recognizedImage }]

/-- `undo` restricted to the local step sequence: return unchanged when
`steps.length === 0`, otherwise `steps.slice(0, -1)`, i.e. drop the last
step. -/
def undoSteps (steps : List Step) : List Step :=
  if steps.length = 0 then steps else steps.dropLast

/-! ## Progress store (`problem_attempts` / `activity_log` tables) -/

/-- A row of the `problem_attempts` table (the columns the queries under
verification read or write). -/
structure AttemptRow where
  id : String
  user_id : String
  problem_id : String
  is_solved : Bool
deriving Repr, DecidableEq

/-- A row of the `activity_log` table. -/
structure ActivityRow where
  id : String
  user_id : String
  activity_date : String
  problems_solved : Nat
  steps_completed : Nat
deriving Repr, DecidableEq

/-- The remote store. Each list is ordered most-recent-first, so the
`order(..., { ascending: false }).limit(1).maybeSingle()` queries are
modelled by `List.find?`. -/
structure DB where
  attempts : List AttemptRow
  activity : List ActivityRow
deriving Repr, DecidableEq

/-- `update({ is_solved: true, completed_at: ... }).eq('id', attemptId)`:
mark the addressed attempt row solved. -/
def markAttemptSolved (attempts : List AttemptRow) (attemptId : String) :
    List AttemptRow :=
  attempts.map fun a =>
    if a.id = attemptId then { a with is_solved := true } else a

/-- The `previouslySolved` query of `markAsSolved`: a solved attempt for
this (user, problem) pair other than the current attempt
(`.eq('user_id', ...).eq('problem_id', ...).eq('is_solved', true).neq('id', attemptId)`). -/
def otherSolvedQuery (attempts : List AttemptRow)
    (userId problemId attemptId : String) : Option AttemptRow :=
  attempts.find? fun a =>
    decide (a.user_id = userId) && decide (a.problem_id = problemId) &&
      a.is_solved && !decide (a.id = attemptId)

/-- Boolean form of the `previouslySolved` query, for stating theorems. -/
def hasOtherSolvedAttempt (attempts : List AttemptRow)
    (userId problemId attemptId : String) : Bool :=
  attempts.any fun a =>
    decide (a.user_id = userId) && decide (a.problem_id = problemId) &&
      a.is_solved && !decide (a.id = attemptId)

/-- The `existingActivity` query: today's activity row for this user. -/
def findActivity (activity : List ActivityRow) (userId today : String) :
    Option ActivityRow :=
  activity.find? fun r =>
    decide (r.user_id = userId) && decide (r.activity_date = today)

/-- `update({ problems_solved: newCount }).eq('id', rowId)` on the
activity table. -/
def bumpProblemsSolved (activity : List ActivityRow) (rowId : String)
    (newCount : Nat) : List ActivityRow :=
  activity.map fun r =>
    if r.id = rowId then { r with problems_solved := newCount } else r

/-- `markAsSolved` from `src/screens/ProblemSolveScreen.tsx`: mark the
current attempt solved; query for another solved attempt of this
(user, problem) pair, EXCLUDING the current attempt id; then increment
today's problems-solved counter only on a first-time solve, inserting
today's row (with counter 1 or 0) if it does not exist yet.
`freshActivityId` is the id the store assigns to an inserted row. -/
def markAsSolved (db : DB) (userId attemptId problemId today freshActivityId : String) :
    DB :=
  let attempts1 := markAttemptSolved db.attempts attemptId
  let previouslySolved := otherSolvedQuery attempts1 userId problemId attemptId
  let isFirstTimeSolving := previouslySolved.isNone
  let activity1 :=
    match findActivity db.activity userId today with
    | some row =>
      if isFirstTimeSolving then
        bumpProblemsSolved db.activity row.id (row.problems_solved + 1)
      else db.activity
    | none =>
      db.activity ++
        [{ id := freshActivityId, user_id := userId, activity_date := today,
           problems_solved := if isFirstTimeSolving then 1 else 0,
           steps_completed := 0 }]
  { attempts := attempts1, activity := activity1 }

/-- `loadOrCreateAttempt` from `src/screens/ProblemSolveScreen.tsx`,
restricted to the attempt id it selects and the store transition: prefer
the most recent unsolved attempt for (user, problem); failing that, the
most recent solved one (re-opening previous work); failing both, insert a
fresh empty unsolved attempt with id `newId`. -/
def loadOrCreateAttempt (db : DB) (userId problemId newId : String) :
    String × DB :=
  match db.attempts.find? (fun a =>
      decide (a.user_id = userId) && decide (a.problem_id = problemId) &&
        !a.is_solved) with
  | some a => (a.id, db)
  | none =>
    match db.attempts.find? (fun a =>
        decide (a.user_id = userId) && decide (a.problem_id = problemId) &&
          a.is_solved) with
    | some a => (a.id, db)
    | none =>
      (newId,
        { db with attempts := db.attempts ++
            [{ id := newId, user_id := userId, problem_id := problemId,
               is_solved := false }] })

/-- Today's problems-solved counter as the activity calendar reads it:
the counter of today's row, or 0 when the row is absent. -/
def todayProblemsSolved (db : DB) (userId today : String) : Nat :=
  ((findActivity db.activity userId today).map fun r => r.problems_solved).getD 0

/-! ## Concrete values used by witnesses and counterexamples -/

/-- The demonstration problem of `App.tsx` / the heuristic checker. -/
def demoProblem : Problem :=
  { id := "demo-yoongi-001",
    question := "A number divided by 10 is 6. Yoongi got the result by subtracting 15 from a certain number. What is the result he got?",
    canonicalAnswer := "45",
    skill_tags := [] }

/-- First committed step of the worked demo solution. -/
def demoStep1 : Step :=
  { id := "1", text := "x/10 = 6", outcome := .correct,
    feedback := some "Good start: you defined the equation x/10 = 6." }

/-- Second committed step of the worked demo solution. -/
def demoStep2 : Step :=
  { id := "2", text := "x = 60", outcome := .correct,
    feedback := some "Nice—solved for x correctly (x = 60)." }

/-- Third committed step of the worked demo solution. -/
def demoStep3 : Step :=
  { id := "3", text := "60 - 15 = 45", outcome := .correct,
    feedback := some "That’s the result Yoongi got: 45." }

/-- A store holding one already-solved attempt for (u1, p1) and today's
activity row with one problem solved: the state right before the user
re-opens problem p1. -/
def dbReopen : DB :=
  { attempts := [{ id := "a1", user_id := "u1", problem_id := "p1",
                   is_solved := true }],
    activity := [{ id := "act1", user_id := "u1", activity_date := "d1",
                   problems_solved := 1, steps_completed := 0 }] }

/-- A recognition response carrying text with surrounding whitespace. -/
def demoRecognition : RecognitionData :=
  { text := some " x + 1 " }

/-- Two steps whose texts are "4" and "5": individually neither contains
"45", but their concatenation does. -/
def splitAnswerSteps : List Step :=
  [{ id := "s1", text := "4", outcome := .neutral },
   { id := "s2", text := "5", outcome := .neutral }]

/-! ## Helper lemmas -/

/-- `find?` finds nothing exactly when `any` is false. -/
theorem find?_isNone_eq_not_any {α : Type} (p : α → Bool) (l : List α) :
    (l.find? p).isNone = !l.any p := by
  induction l with
  | nil => rfl
  | cons a l ih =>
    by_cases h : p a
    · simp [List.find?_cons_of_pos _ h, h]
    · simp [List.find?_cons_of_neg _ h, h, ih]

/-- `isPrefixChars` decides the prefix relation. -/
theorem isPrefixChars_iff (sub l : List Char) :
    isPrefixChars sub l = true ↔ ∃ post, l = sub ++ post := by
  induction sub generalizing l with
  | nil => simp [isPrefixChars]
  | cons p ps ih =>
    cases l with
    | nil => simp [isPrefixChars]
    | cons c cs =>
      simp only [isPrefixChars, Bool.and_eq_true, beq_iff_eq, ih,
        List.cons_append, List.cons.injEq]
      constructor
      · rintro ⟨rfl, post, rfl⟩
        exact ⟨post, rfl, rfl⟩
      · rintro ⟨post, rfl, rfl⟩
        exact ⟨rfl, post, rfl⟩

/-- `hasSubstring` decides contiguous-substring containment. -/
theorem hasSubstring_iff (sub l : List Char) :
    hasSubstring sub l = true ↔ ∃ pre post, l = pre ++ sub ++ post := by
  induction l with
  | nil =>
    simp only [hasSubstring, isPrefixChars_iff]
    constructor
    · rintro ⟨post, h⟩
      exact ⟨[], post, h⟩
    · rintro ⟨pre, post, h⟩
      rcases List.append_eq_nil.mp (List.append_eq_nil.mp h.symm).1 with ⟨h1, h2⟩
      exact ⟨post, by simp [h1, h2] at h ⊢; exact h⟩
  | cons c rest ih =>
    simp only [hasSubstring, Bool.or_eq_true, isPrefixChars_iff, ih]
    constructor
    · rintro (⟨post, h⟩ | ⟨pre, post, h⟩)
      · exact ⟨[], post, by simpa using h⟩
      · exact ⟨c :: pre, post, by simp [h]⟩
    · rintro ⟨pre, post, h⟩
      cases pre with
      | nil => exact Or.inl ⟨post, by simpa using h⟩
      | cons a pre' =>
        simp only [List.cons_append, List.cons.injEq] at h
        exact Or.inr ⟨pre', post, h.2⟩

/-! ## Claim theorems -/

/-- C1: the session controller's `solved` predicate holds exactly when some
step in the attempt's step sequence has outcome `"correct"` and the last
step of the sequence has outcome `"correct"`. -/
theorem solved_iff_exists_and_last (steps : List Step) :
    solved steps = true ↔
      (∃ s ∈ steps, s.outcome = StepOutcome.correct) ∧
        steps.getLast?.map Step.outcome = some StepOutcome.correct := by
  simp [solved, List.any_eq_true]

/-- C9: `solved` is equivalent to the simpler predicate "the step list is
non-empty and its last step's outcome is `correct`" (the existence conjunct
is redundant), and `solved` is false on the empty list. -/
theorem solved_eq_solvedSimple (steps : List Step) :
    solved steps = solvedSimple steps ∧ solved [] = false := by
  refine ⟨?_, rfl⟩
  rw [Bool.eq_iff_iff]
  simp only [solved, solvedSimple, Bool.and_eq_true, List.any_eq_true,
    decide_eq_true_eq, Bool.not_eq_true', List.isEmpty_eq_false]
  constructor
  · rintro ⟨-, hlast⟩
    refine ⟨?_, hlast⟩
    intro hnil
    rw [hnil] at hlast
    simp at hlast
  · rintro ⟨hne, hlast⟩
    refine ⟨?_, hlast⟩
    rcases Option.map_eq_some'.mp hlast with ⟨a, ha, hout⟩
    exact ⟨a, List.mem_of_getLast?_eq_some ha, hout⟩

/-- C2: for the heuristic validator, the three demonstration lines
`"x/10 = 6"`, `"x = 60"`, `"60 - 15 = 45"` (each checked with the previous
lines as prior steps) are all classified `"correct"`, and `isSolved` on the
resulting three-step list is true, whatever the problem argument. -/
theorem heuristic_demo_walkthrough (problem : Problem) :
    (Checker.checkNewLine problem [] "x/10 = 6").outcome = StepOutcome.correct ∧
    (Checker.checkNewLine problem [demoStep1] "x = 60").outcome = StepOutcome.correct ∧
    (Checker.checkNewLine problem [demoStep1, demoStep2] "60 - 15 = 45").outcome = StepOutcome.correct ∧
    Checker.isSolved [demoStep1, demoStep2, demoStep3] problem = true :=
  ⟨rfl, rfl, rfl, rfl⟩

/-- C7: for the heuristic validator, the line `"60 - 15 = 40"` is
classified `"incorrect"` with the fixed subtraction feedback, for every
problem and every prior step list. -/
theorem heuristic_wrong_subtraction (problem : Problem) (prior : List Step) :
    Checker.checkNewLine problem prior "60 - 15 = 40" =
      { outcome := StepOutcome.incorrect,
        feedback := some "Check the subtraction: 60 − 15 should be 45." } :=
  rfl

/-- C3: whenever the fetch of the remote-judge `validateStep` fails (the
promise rejects, the status is non-success, or the body is not valid JSON),
the function returns outcome `"neutral"` with the fixed apology feedback;
being a total function into `ValidationResponse`, it propagates no
exception to its caller. -/
theorem validateStep_network_failure (net : NetResult ValidationResponse)
    (problem : Problem) (priorSteps : List Step) (currentStep : String)
    (h : net.isFailure = true) :
    validateStep net problem priorSteps currentStep =
      { outcome := StepOutcome.neutral,
        feedback := "Unable to validate step (API unavailable). Continue working." } := by
  cases net with
  | success r => simp [NetResult.isFailure] at h
  | netError => rfl
  | httpError s b => rfl
  | badJson => rfl

/-- Witness for C3 at a concrete failing fetch. -/
theorem validateStep_network_failure_witness :
    validateStep NetResult.netError demoProblem [] "x = 60" =
      { outcome := StepOutcome.neutral,
        feedback := "Unable to validate step (API unavailable). Continue working." } :=
  validateStep_network_failure NetResult.netError demoProblem [] "x = 60" rfl

/-- C8: `recognizeHandwriting` issues exactly one request to the configured
endpoint carrying the base64 image; on a success status it returns the
recognized text trimmed of surrounding whitespace, and on a failing fetch
(unreachable endpoint, non-success status, or unparseable body) it throws
an error instead of returning a value. -/
theorem recognizeHandwriting_contract (proxy pngBase64 : String)
    (net : NetResult RecognitionData) (data : RecognitionData)
    (hfail : net.isFailure = true) :
    (recognizeHandwriting proxy net pngBase64).1 =
      [{ url := proxy, imageBase64 := pngBase64 }] ∧
    (recognizeHandwriting proxy (NetResult.success data) pngBase64).1 =
      [{ url := proxy, imageBase64 := pngBase64 }] ∧
    (recognizeHandwriting proxy (NetResult.success data) pngBase64).2 =
      Except.ok (jsTrim (data.text.getD "")) ∧
    ∃ msg, (recognizeHandwriting proxy net pngBase64).2 = Except.error msg := by
  refine ⟨rfl, rfl, rfl, ?_⟩
  cases net with
  | success r => simp [NetResult.isFailure] at hfail
  | netError => exact ⟨_, rfl⟩
  | httpError s b => exact ⟨_, rfl⟩
  | badJson => exact ⟨_, rfl⟩

/-- Witness for C8 at a concrete failing fetch and a concrete success. -/
theorem recognizeHandwriting_contract_witness :
    (recognizeHandwriting "http://localhost:5056/recognize" NetResult.netError "img64").1 =
      [{ url := "http://localhost:5056/recognize", imageBase64 := "img64" }] ∧
    (recognizeHandwriting "http://localhost:5056/recognize"
        (NetResult.success demoRecognition) "img64").1 =
      [{ url := "http://localhost:5056/recognize", imageBase64 := "img64" }] ∧
    (recognizeHandwriting "http://localhost:5056/recognize"
        (NetResult.success demoRecognition) "img64").2 =
      Except.ok (jsTrim (demoRecognition.text.getD "")) ∧
    ∃ msg, (recognizeHandwriting "http://localhost:5056/recognize"
        NetResult.netError "img64").2 = Except.error msg :=
  recognizeHandwriting_contract "http://localhost:5056/recognize" "img64"
    NetResult.netError demoRecognition rfl

/-- C10: `filterProblemsByTags` is the identity for an empty tag selection,
and otherwise filters the input list (preserving order) down to the
problems whose `skill_tags` contain EVERY selected tag. -/
theorem filterProblemsByTags_and_semantics (problems : List ProblemData)
    (selectedTags : List String) :
    filterProblemsByTags problems [] = problems ∧
    filterProblemsByTags problems selectedTags =
      problems.filter fun p => decide (∀ tag ∈ selectedTags, tag ∈ p.skill_tags) := by
  refine ⟨rfl, ?_⟩
  unfold filterProblemsByTags
  cases selectedTags with
  | nil => simp
  | cons t ts =>
    rw [if_neg (by simp)]
    refine List.filter_congr ?_
    intro p _
    rw [Bool.eq_iff_iff]
    simp [List.all_eq_true, List.contains_iff_exists_mem_beq, beq_iff_eq]

/-- C6: undo is a strict inverse of the last append on the local step
sequence: committing a (non-empty) typed or inked line and then undoing
returns exactly the previous step list, and undo on any non-empty list
removes exactly the last element, leaving all earlier steps unchanged. -/
theorem undo_strict_inverse (check : List Step → String → CheckResult)
    (steps : List Step) (typedDraft recognizedText newId : String)
    (img : Option String) (l : List Step)
    (hdraft : jsTrim typedDraft ≠ "") (htext : recognizedText ≠ "")
    (hne : l ≠ []) :
    undoSteps (commitTyped check steps typedDraft newId) = steps ∧
    undoSteps (commitInk check steps (some recognizedText) img newId) = steps ∧
    undoSteps l ++ [l.getLast hne] = l := by
  refine ⟨?_, ?_, ?_⟩
  · unfold commitTyped
    rw [if_neg hdraft]
    unfold undoSteps
    rw [if_neg (by simp), List.dropLast_concat]
  · show undoSteps
      (if recognizedText = "" then steps
       else
         let res := check steps recognizedText
         steps ++ [{ id := newId, text := recognizedText, outcome := res.outcome,
                     feedback := res.feedback, imageBase64 := img }]) = steps
    rw [if_neg htext]
    unfold undoSteps
    rw [if_neg (by simp), List.dropLast_concat]
  · unfold undoSteps
    rw [if_neg (by simpa using hne)]
    exact List.dropLast_concat_getLast hne

/-- Witness for C6 at concrete inputs. -/
theorem undo_strict_inverse_witness :
    undoSteps (commitTyped (fun _ _ => { outcome := StepOutcome.neutral })
      [] "x = 60" "7") = [] ∧
    undoSteps (commitInk (fun _ _ => { outcome := StepOutcome.neutral })
      [] (some "x = 60") none "7") = [] ∧
    undoSteps [demoStep1] ++ [[demoStep1].getLast (by decide)] = [demoStep1] :=
  undo_strict_inverse (fun _ _ => { outcome := StepOutcome.neutral })
    [] "x = 60" "x = 60" "7" none [demoStep1] (by decide) (by decide) (by decide)

/-- C4 counterexample: with the canonical answer "45" and step texts "4"
and "5", a failing final-check fetch yields `isSolved = false`, while the
containment check on the CONCATENATED step text (as the claim words it)
yields true — so the fallback flag does not equal the concatenated check. -/
theorem checkIfSolved_concat_counterexample :
    (checkIfSolved NetResult.netError demoProblem splitAnswerSteps).isSolved = false ∧
    concatContainmentCheck demoProblem splitAnswerSteps = true := by
  exact ⟨rfl, rfl⟩

/-- C4 (amended): whenever the final-check fetch fails, the returned
`isSolved` flag is true exactly when the lowercased canonical answer occurs
as a substring of the lowercased text of some SINGLE step; no exception
propagates (`checkIfSolved` is a total function into `FinalCheckResponse`). -/
theorem checkIfSolved_fallback_per_step (net : NetResult FinalCheckResponse)
    (problem : Problem) (steps : List Step) (h : net.isFailure = true) :
    (checkIfSolved net problem steps).isSolved = true ↔
      ∃ s ∈ steps, ∃ pre post,
        lowerChars s.text.toList =
          pre ++ lowerChars problem.canonicalAnswer.toList ++ post := by
  cases net with
  | success r => simp [NetResult.isFailure] at h
  | netError =>
    simp [checkIfSolved, checkIfSolvedTryBody, List.any_eq_true, hasSubstring_iff]
  | httpError s b =>
    simp [checkIfSolved, checkIfSolvedTryBody, List.any_eq_true, hasSubstring_iff]
  | badJson =>
    simp [checkIfSolved, checkIfSolvedTryBody, List.any_eq_true, hasSubstring_iff]

/-- Witness for C4's amended theorem at a concrete failing fetch. -/
theorem checkIfSolved_fallback_per_step_witness :
    (checkIfSolved NetResult.netError demoProblem [demoStep3]).isSolved = true ↔
      ∃ s ∈ [demoStep3], ∃ pre post,
        lowerChars s.text.toList =
          pre ++ lowerChars demoProblem.canonicalAnswer.toList ++ post :=
  checkIfSolved_fallback_per_step NetResult.netError demoProblem [demoStep3] rfl

/-- Marking the current attempt solved does not change what the
`previouslySolved` query (which excludes the current attempt id) can find:
whether it comes up empty is decided by the original attempts table. -/
theorem otherSolvedQuery_after_mark_isNone (atts : List AttemptRow)
    (u pid aid : String) :
    (otherSolvedQuery (markAttemptSolved atts aid) u pid aid).isNone =
      !hasOtherSolvedAttempt atts u pid aid := by
  unfold otherSolvedQuery markAttemptSolved hasOtherSolvedAttempt
  rw [List.find?_map]
  have hcomp :
      ((fun a : AttemptRow =>
          decide (a.user_id = u) && decide (a.problem_id = pid) &&
            a.is_solved && !decide (a.id = aid)) ∘
        fun a : AttemptRow =>
          if a.id = aid then { a with is_solved := true } else a) =
      fun a : AttemptRow =>
        decide (a.user_id = u) && decide (a.problem_id = pid) &&
          a.is_solved && !decide (a.id = aid) := by
    funext a
    by_cases h : a.id = aid
    · simp [Function.comp, h]
    · simp [Function.comp, h]
  rw [hcomp, Option.isNone_map', find?_isNone_eq_not_any]

/-- `findActivity` over an appended row. -/
theorem findActivity_append (acts : List ActivityRow) (row : ActivityRow)
    (u d : String) :
    findActivity (acts ++ [row]) u d =
      (findActivity acts u d).or
        (if decide (row.user_id = u) && decide (row.activity_date = d)
         then some row else none) := by
  unfold findActivity
  rw [List.find?_append, List.find?_singleton]

/-- `findActivity` after an `update` addressed by row id: since the update
leaves `user_id` and `activity_date` unchanged, the found row is the found
row of the original table, updated. -/
theorem findActivity_bump (acts : List ActivityRow) (rid : String) (n : Nat)
    (u d : String) :
    findActivity (bumpProblemsSolved acts rid n) u d =
      (findActivity acts u d).map
        (fun r => if r.id = rid then { r with problems_solved := n } else r) := by
  unfold findActivity bumpProblemsSolved
  rw [List.find?_map]
  have hcomp :
      ((fun r : ActivityRow =>
          decide (r.user_id = u) && decide (r.activity_date = d)) ∘
        fun r : ActivityRow =>
          if r.id = rid then { r with problems_solved := n } else r) =
      fun r : ActivityRow =>
        decide (r.user_id = u) && decide (r.activity_date = d) := by
    funext r
    by_cases h : r.id = rid
    · simp [Function.comp, h]
    · simp [Function.comp, h]
  rw [hcomp]

/-- C5 (amended): `markAsSolved` increments today's problems-solved counter
exactly when no OTHER solved attempt row (one with a different attempt id)
exists for this (user, problem) pair; when such a row exists the counter is
unchanged. In particular re-solving through a fresh attempt does not
increment again, but re-marking the same previously-solved attempt row —
which is what happens after re-opening a solved attempt — does. -/
theorem markAsSolved_counter_spec (db : DB) (u aid pid d fid : String) :
    todayProblemsSolved (markAsSolved db u aid pid d fid) u d =
      (if hasOtherSolvedAttempt db.attempts u pid aid then
        todayProblemsSolved db u d
      else todayProblemsSolved db u d + 1) := by
  unfold markAsSolved todayProblemsSolved
  simp only [otherSolvedQuery_after_mark_isNone]
  cases hother : hasOtherSolvedAttempt db.attempts u pid aid with
  | true =>
    simp only [Bool.not_true, Bool.false_eq_true, if_false]
    cases hact : findActivity db.activity u d with
    | none =>
      simp only [hact]
      rw [findActivity_append, hact]
      simp
    | some row =>
      simp [hact]
  | false =>
    simp only [Bool.not_false, if_true]
    cases hact : findActivity db.activity u d with
    | none =>
      simp only [hact]
      rw [findActivity_append, hact]
      simp
    | some row =>
      simp only [hact]
      rw [findActivity_bump, hact]
      simp

/-- C5 counterexample: with one already-solved attempt `a1` for (u1, p1)
and today's counter at 1, re-opening the problem selects that same attempt
row `a1`, and marking it solved again raises today's problems-solved
counter from 1 to 2 — solving the same problem a second time through the
re-opened attempt DOES increment the counter again, because the
`previouslySolved` query excludes the current attempt id. -/
theorem markAsSolved_reopen_counterexample :
    (loadOrCreateAttempt dbReopen "u1" "p1" "aNew").1 = "a1" ∧
    todayProblemsSolved dbReopen "u1" "d1" = 1 ∧
    todayProblemsSolved (markAsSolved dbReopen "u1" "a1" "p1" "d1" "act2") "u1" "d1" = 2 := by
  exact ⟨rfl, rfl, rfl⟩
